import Mathlib

/-!
Verification of the GDAltWebserver persistence core against its
specification.  Go strings are embedded as lists of byte values
(`List Nat`, each entry < 256); fallible operations return `Option` or an
explicit result type.  External library routines (gzip compression from
`compress/gzip`) are treated as parameters of the embedded functions,
constrained only where a claim needs their interface contract.
-/

namespace GDAlt

/-- Byte values of an ASCII string literal (all sources use ASCII
constants, where Go byte length and code points coincide). -/
def bytesOf (s : String) : List Nat := s.data.map Char.toNat

/-- Go `strings.Contains(data, c)` for a single-byte needle `c`. -/
def containsByte (b : Nat) : List Nat → Bool
  | [] => false
  | c :: rest => c = b || containsByte b rest

/-- Byte value of `<`. -/
def ltByte : Nat := 60

/-- Byte value of `>`. -/
def gtByte : Nat := 62

/-- The standard base64 alphabet used by Go `encoding/base64.StdEncoding`. -/
def b64Table : List Nat :=
  bytesOf "ABCDEFGHIJKLMNOPQRSTUVWXYZabcdefghijklmnopqrstuvwxyz0123456789+/"

/-- Character emitted for a 6-bit group (out-of-range values cannot occur
for byte inputs; the default is never reached). -/
def b64Char (n : Nat) : Nat := (b64Table.drop n).headD 65

/-- Go `base64.StdEncoding.EncodeToString`: 3-byte groups to 4 characters,
with `=` (61) padding. -/
def base64Encode : List Nat → List Nat
  | [] => []
  | [a] => [b64Char (a % 256 / 4), b64Char (a % 4 * 16), 61, 61]
  | [a, b] => [b64Char (a % 256 / 4), b64Char (a % 4 * 16 + b % 256 / 16),
               b64Char (b % 16 * 4), 61]
  | a :: b :: c :: rest =>
      b64Char (a % 256 / 4) :: b64Char (a % 4 * 16 + b % 256 / 16) ::
      b64Char (b % 16 * 4 + c % 256 / 64) :: b64Char (c % 64) ::
      base64Encode rest

/-- Value of one base64 alphabet character, `none` for every byte outside
the alphabet (including `=` and `:`), as in Go's decode table. -/
def b64Val (c : Nat) : Option Nat :=
  if 65 ≤ c ∧ c ≤ 90 then some (c - 65)
  else if 97 ≤ c ∧ c ≤ 122 then some (c - 71)
  else if 48 ≤ c ∧ c ≤ 57 then some (c + 4)
  else if c = 43 then some 62
  else if c = 47 then some 63
  else none

/-- Quantum-by-quantum decoding: 4 characters to 3 bytes, `=` padding only
in the final quantum, trailing-bit values not checked (Go's non-strict
`StdEncoding` behaviour). -/
def b64DecodeGroups : List Nat → Option (List Nat)
  | [] => some []
  | a :: b :: c :: d :: rest =>
      match b64Val a, b64Val b with
      | some va, some vb =>
          if c = 61 then
            if d = 61 ∧ rest = [] then some [va * 4 + vb / 16] else none
          else
            match b64Val c with
            | some vc =>
                if d = 61 then
                  if rest = [] then some [va * 4 + vb / 16, vb % 16 * 16 + vc / 4]
                  else none
                else
                  match b64Val d with
                  | some vd =>
                      (b64DecodeGroups rest).map
                        (fun t => (va * 4 + vb / 16) :: (vb % 16 * 16 + vc / 4) ::
                                  (vc % 4 * 64 + vd) :: t)
                  | none => none
            | none => none
      | _, _ => none
  | _ => none

/-- Go `base64.StdEncoding.DecodeString`: newline bytes are ignored, the
remaining input must be whole padded quanta. -/
def base64Decode (input : List Nat) : Option (List Nat) :=
  b64DecodeGroups (input.filter (fun c => decide (c ≠ 10) && decide (c ≠ 13)))

/-- Outcome of the gzip reading side (`gzip.NewReader` + `io.Copy`):
`headerErr` is a `NewReader` failure (bad gzip header), `readErr` is an
`io.Copy` failure on a corrupt or truncated stream, `ok` is a full
decompression. -/
inductive GunzipOut
  | headerErr
  | readErr
  | ok (payload : List Nat)
deriving DecidableEq, Repr

/-- `decompressSaveData` from `load.go`: empty input yields empty output;
data containing `<` or `>` is returned as-is; base64 or gzip-header
failures fall back to returning the input unchanged; only a gzip body
read failure is surfaced as an error.  The gzip reader is the
`gunzip` parameter. -/
def decompressSaveData (gunzip : List Nat → GunzipOut) (data : List Nat) :
    Except Unit (List Nat) :=
  if data = [] then .ok []
  else if !containsByte ltByte data && !containsByte gtByte data then
    match base64Decode data with
    | none => .ok data
    | some compressedBytes =>
        match gunzip compressedBytes with
        | .headerErr => .ok data
        | .readErr => .error ()
        | .ok payload => .ok payload
  else .ok data

/-- The base64 pre-decoding step of `compressData`: input that has no
`<`/`>` bytes, is longer than 100 bytes and decodes as base64 is
compressed in decoded form and tagged `B64GZ:` instead of `GZ:`. -/
def preDecoded (data : List Nat) : Option (List Nat) :=
  if !containsByte ltByte data && !containsByte gtByte data &&
      decide (data.length > 100) then
    base64Decode data
  else none

/-- The bytes handed to the gzip writer by `compressData`. -/
def dataToCompress (data : List Nat) : List Nat :=
  (preDecoded data).getD data

/-- The tagged, re-encoded representation `compressData` builds before the
size check: tag plus base64 of the gzip output.  `gz` is the
`gzip.BestCompression` writer. -/
def taggedForm (gz : List Nat → List Nat) (data : List Nat) : List Nat :=
  (if (preDecoded data).isSome then bytesOf "B64GZ:" else bytesOf "GZ:") ++
    base64Encode (gz (dataToCompress data))

/-- `compressData` from the save handler: empty input maps to empty
output; otherwise the tagged compressed form is kept only when it is at
least 10% smaller than the input, else the input is stored verbatim.
Go computes the threshold as `int(float64(len(data))*0.90)`, which equals
`9 * len(data) / 10` for every length below 4·10^14. -/
def compressData (gz : List Nat → List Nat) (data : List Nat) : List Nat :=
  if data = [] then []
  else if (taggedForm gz data).length ≥ 9 * data.length / 10 then data
  else taggedForm gz data

/-! ### Go error values and transient classification (`save.go`) -/

/-- A Go `error` value as the retry code observes it: whether
`errors.Is(err, driver.ErrBadConn)` holds, and the bytes of
`err.Error()`. -/
structure GoErr where
  badConn : Bool
  msg : List Nat
deriving DecidableEq, Repr

/-- ASCII case folding; `strings.ToLower` agrees with this on the ASCII
driver messages the classifier matches against. -/
def asciiToLower (b : Nat) : Nat := if 65 ≤ b ∧ b ≤ 90 then b + 32 else b

/-- Go `strings.Contains(hay, needle)` on byte strings. -/
def containsSeq (hay needle : List Nat) : Bool :=
  match hay with
  | [] => needle.isEmpty
  | c :: t => needle.isPrefixOf (c :: t) || containsSeq t needle

/-- `isTransient` from `save.go`: the driver bad-connection signal or one
of the recognised substrings of the lowercased message. -/
def isTransientErr (err : GoErr) : Bool :=
  err.badConn ||
    (let msg := err.msg.map asciiToLower
     containsSeq msg (bytesOf "connection reset by peer") ||
     containsSeq msg (bytesOf "broken pipe") ||
     containsSeq msg (bytesOf "i/o timeout") ||
     containsSeq msg (bytesOf "connection refused") ||
     containsSeq msg (bytesOf "tls: handshake timeout") ||
     containsSeq msg (bytesOf "use of closed network connection"))

/-! ### `execWithRetries` (`save.go`) -/

/-- Oracle for one `execWithRetries` run: the outcome of each numbered
`ExecContext` attempt (`none` = success), whether the caller's context is
done during the wait following each attempt, and the context's error. -/
structure RetryOracle where
  execRes : Nat → Option GoErr
  cancelledDuringWait : Nat → Bool
  ctxErr : GoErr

/-- Final outcome of `execWithRetries`: success, the last attempt's error
returned untouched, or the context's cancellation error. -/
inductive RetryResult
  | success
  | failed (e : GoErr)
  | cancelled (e : GoErr)
deriving DecidableEq, Repr

/-- The loop body of `execWithRetries` from `attempt` on, with the
current backoff in milliseconds.  Returns the result, the number of the
final attempt, and the list of completed backoff waits. -/
def retryFrom (o : RetryOracle) (attempt backoff : Nat) :
    RetryResult × Nat × List Nat :=
  match o.execRes attempt with
  | none => (.success, attempt, [])
  | some e =>
      if h : isTransientErr e = true ∧ attempt < 3 then
        if o.cancelledDuringWait attempt then (.cancelled o.ctxErr, attempt, [])
        else
          let r := retryFrom o (attempt + 1) (backoff * 2)
          (r.1, r.2.1, backoff :: r.2.2)
      else (.failed e, attempt, [])
termination_by 3 - attempt
decreasing_by omega

/-- `execWithRetries`: at most 3 attempts starting with a 200ms backoff. -/
def execWithRetriesGo (o : RetryOracle) : RetryResult × Nat × List Nat :=
  retryFrom o 1 200

/-! ### `ValidateArgonToken` (`auth.go`) -/

/-- Nanoseconds per second; times are modelled as integer nanoseconds. -/
def nsPerSec : Int := 1000000000

/-- The 5-minute credential-cache TTL of `ValidateArgonToken`. -/
def ttlNs : Int := 5 * 60 * nsPerSec

/-- The stored account row as the validator reads it: the `argon_token`
`NullString` and the `token_validated_at` `NullTime`. -/
structure AuthState where
  row : Option (Option (List Nat) × Option Int)
deriving DecidableEq, Repr

/-- Result of re-running the account SELECT after creating a missing
accounts table. -/
inductive ScanRes
  | noRows
  | found (tok : Option (List Nat)) (vat : Option Int)
  | fail (e : GoErr)
deriving DecidableEq, Repr

/-- The remote authority's HTTP response once `client.Do` succeeded:
status code, `io.ReadAll` outcome, and the parsed `{valid: bool}` body
(`Except.error` = `json.Unmarshal` failure). -/
structure RemoteResp where
  statusCode : Nat
  readErr : Option GoErr
  parse : Except GoErr Bool

/-- Which code path produced a non-nil error from `ValidateArgonToken`. -/
inductive AuthErrSrc
  | db (e : GoErr)
  | insertFail (e : GoErr)
  | request (e : GoErr)
  | net (e : GoErr)
  | http (code : Nat)
  | readBody (e : GoErr)
  | json (e : GoErr)
deriving DecidableEq, Repr

/-- The validator's 3-state outcome: `(true, nil)`, `(false, nil)`, or
`(false, err)` with the error's provenance. -/
inductive VOutcome
  | valid
  | invalid
  | errOut (e : AuthErrSrc)
deriving DecidableEq, Repr

/-- Environment oracle for one `ValidateArgonToken` run: database faults,
the table-missing recovery path, request construction, whether
`ARGON_BASE_URL` is configured, and the remote authority's behaviour. -/
structure AuthOracle where
  scanFail : Option GoErr
  createTableErr : Option GoErr
  scan2 : ScanRes
  insertErr : Option GoErr
  newReqErr : Option GoErr
  argonConfigured : Bool
  remote : Except GoErr RemoteResp
  updateErr : Option GoErr

/-- The table-missing test of `auth.go`: message contains `1146`, or its
lowercasing contains `doesn't exist`. -/
def tableMissingErr (e : GoErr) : Bool :=
  containsSeq e.msg (bytesOf "1146") ||
    containsSeq (e.msg.map asciiToLower)
      (bytesOf "doesn" ++ [39] ++ bytesOf "t exist")

/-- Result of one validator run: the outcome, the account row afterwards,
and whether the remote authority was contacted. -/
structure AuthRun where
  out : VOutcome
  st : AuthState
  remoteCalled : Bool
deriving DecidableEq, Repr

/-- `ValidateArgonToken` from `auth.go`, including: account-row creation
with immediate success on `ErrNoRows`; the create-table-and-retry path
(whose successful rescan still falls through to returning the original
lookup error); the mismatch early return; the TTL cache check; the
not-configured fallback; and the remote call with its error and update
handling (a failed `token_validated_at` update is logged but still
returns success). -/
def validateArgonToken (o : AuthOracle) (now : Int) (st : AuthState)
    (token : List Nat) : AuthRun :=
  match o.scanFail with
  | some e =>
      if tableMissingErr e then
        match o.createTableErr with
        | some _ => ⟨.errOut (.db e), st, false⟩
        | none =>
            match o.scan2 with
            | .noRows => ⟨.invalid, st, false⟩
            | .fail e2 => ⟨.errOut (.db e2), st, false⟩
            | .found _ _ => ⟨.errOut (.db e), st, false⟩
      else ⟨.errOut (.db e), st, false⟩
  | none =>
      match st.row with
      | none =>
          match o.insertErr with
          | some e => ⟨.errOut (.insertFail e), st, false⟩
          | none => ⟨.valid, ⟨some (some token, none)⟩, false⟩
      | some (storedTok, vat) =>
          if storedTok ≠ some token then ⟨.invalid, st, false⟩
          else if (match vat with
                   | some t => decide (now - t ≤ ttlNs)
                   | none => false) then ⟨.valid, st, false⟩
          else if !o.argonConfigured then ⟨.valid, st, false⟩
          else
            match o.newReqErr with
            | some e => ⟨.errOut (.request e), st, false⟩
            | none =>
                match o.remote with
                | .error e => ⟨.errOut (.net e), st, true⟩
                | .ok resp =>
                    if resp.statusCode ≠ 200 then
                      ⟨.errOut (.http resp.statusCode), st, true⟩
                    else
                      match resp.readErr with
                      | some e => ⟨.errOut (.readBody e), st, true⟩
                      | none =>
                          match resp.parse with
                          | .error e => ⟨.errOut (.json e), st, true⟩
                          | .ok valid =>
                              if valid then
                                match o.updateErr with
                                | some _ => ⟨.valid, st, true⟩
                                | none =>
                                    ⟨.valid, ⟨some (storedTok, some now)⟩, true⟩
                              else ⟨.invalid, st, true⟩

/-! ### Quota-gated save segment (`services/check.go` save handler) -/

/-- Database faults for the post-validation save segment. -/
structure SaveOracle where
  ensureErr : Option GoErr
  sizeLookupErr : Option GoErr
  saveWriteErr : Option GoErr
  levelWriteErr : Option GoErr

/-- Responses of the save segment. -/
inductive SaveResp
  | okResp
  | quotaExceeded (limit required : Nat)
  | packetTooLarge (limit required : Nat)
  | internalErr
deriving DecidableEq, Repr

/-- The `level_data` update half of the segment. -/
def levelUpdatePart (o : SaveOracle) (maxAllowedPacket : Nat)
    (st : List Nat × List Nat) (levelData : List Nat) :
    SaveResp × Option (List Nat × List Nat) :=
  if levelData ≠ [] then
    if levelData.length > maxAllowedPacket then
      (.packetTooLarge maxAllowedPacket levelData.length, some st)
    else
      match o.levelWriteErr with
      | some _ => (.internalErr, some st)
      | none => (.okResp, some (st.1, levelData))
  else (.okResp, some st)

/-- The `save_data` update half of the segment, followed by the level
half. -/
def saveUpdatePart (o : SaveOracle) (maxAllowedPacket : Nat)
    (st : List Nat × List Nat) (saveData levelData : List Nat) :
    SaveResp × Option (List Nat × List Nat) :=
  if saveData ≠ [] then
    if saveData.length > maxAllowedPacket then
      (.packetTooLarge maxAllowedPacket saveData.length, some st)
    else
      match o.saveWriteErr with
      | some _ => (.internalErr, some st)
      | none => levelUpdatePart o maxAllowedPacket (saveData, st.2) levelData
  else levelUpdatePart o maxAllowedPacket st levelData

/-- The save handler from the `INSERT IGNORE` row-ensure on: read the
current stored lengths, compute the proposed total (new payload size
where provided, else current stored size), reject over-quota requests
with `(limit, required)` before any write, then apply the per-field
packet checks and partial updates. -/
def saveQuotaSegment (o : SaveOracle) (maxDataSize maxAllowedPacket : Nat)
    (st : Option (List Nat × List Nat)) (saveData levelData : List Nat) :
    SaveResp × Option (List Nat × List Nat) :=
  match o.ensureErr with
  | some _ => (.internalErr, st)
  | none =>
      let cur := st.getD ([], [])
      match o.sizeLookupErr with
      | some _ => (.internalErr, some cur)
      | none =>
          let newSaveSize := if saveData ≠ [] then saveData.length else cur.1.length
          let newLevelSize := if levelData ≠ [] then levelData.length else cur.2.length
          let totalProposed := newSaveSize + newLevelSize
          if totalProposed > maxDataSize then
            (.quotaExceeded maxDataSize totalProposed, some cur)
          else saveUpdatePart o maxAllowedPacket cur saveData levelData

/-! ### Per-account save rate limit (`save.go`) -/

/-- The rate-limit gate at the top of the save handler: with a non-empty
account id and a positive interval, reject when the recorded last save is
less than the interval ago, else record `now` and allow.  The map update
happens here, before any database work. -/
def rateAllow (minIntervalSec : Nat) (lastMap : List Nat → Option Int)
    (acct : List Nat) (now : Int) : Bool × (List Nat → Option Int) :=
  if acct ≠ [] ∧ 0 < minIntervalSec then
    match lastMap acct with
    | some last =>
        if now - last < (minIntervalSec : Int) * nsPerSec then (false, lastMap)
        else (true, fun a => if a = acct then some now else lastMap a)
    | none => (true, fun a => if a = acct then some now else lastMap a)
  else (true, lastMap)

/-- The save handler around the gate: a rate-limited request answers 429;
an allowed one proceeds to the database write, whose failure yields an
error response but leaves the already-updated timestamp in place. -/
def saveWithRate (minIntervalSec : Nat) (lastMap : List Nat → Option Int)
    (acct : List Nat) (now : Int) (writeFails : Bool) :
    Bool × (List Nat → Option Int) :=
  let g := rateAllow minIntervalSec lastMap acct now
  if g.1 then (!writeFails, g.2) else (false, g.2)

/-! ### Retention cleanup (`runCleanup`) -/

/-- Nanoseconds per day. -/
def dayNs : Int := 86400 * nsPerSec

/-- An `accounts` row (only the key matters to the sweep). -/
structure Account where
  id : List Nat
deriving DecidableEq, Repr

/-- A `saves` row: owning account and its `created_at` timestamp. -/
structure SaveRow where
  accountId : List Nat
  createdAt : Int
deriving DecidableEq, Repr

/-- The backing store's two tables. -/
structure StoreDB where
  accounts : List Account
  saves : List SaveRow
deriving DecidableEq, Repr

/-- The sweep's WHERE clause: `created_at < DATE_SUB(NOW(), INTERVAL 100
DAY)`. -/
def oldSave (now : Int) (s : SaveRow) : Bool := s.createdAt < now - 100 * dayNs

/-- The joined `(account, save)` pairs matching the sweep's DELETE:
`accounts a JOIN saves s ON a.account_id = s.account_id` filtered by the
age condition. -/
def cleanupPairs (now : Int) (db : StoreDB) : List (Account × SaveRow) :=
  db.accounts.flatMap fun a =>
    (db.saves.filter fun s => s.accountId = a.id && oldSave now s).map
      fun s => (a, s)

/-- `runCleanup`: the multi-table `DELETE a, s` removes every account and
save row appearing in a matched pair, and `RowsAffected` reports the
total number of removed rows across both tables. -/
def runCleanup (now : Int) (db : StoreDB) : StoreDB × Nat :=
  let pairs := cleanupPairs now db
  let newAccounts := db.accounts.filter fun a => !pairs.any fun p => p.1 = a
  let newSaves := db.saves.filter fun s => !pairs.any fun p => p.2 = s
  (⟨newAccounts, newSaves⟩,
    (db.accounts.length - newAccounts.length) +
      (db.saves.length - newSaves.length))

/-! ### Helper lemmas about the codec -/

theorem containsByte_eq_true {b : Nat} {l : List Nat} :
    containsByte b l = true ↔ b ∈ l := by
  induction l with
  | nil => simp [containsByte]
  | cons c t ih =>
      simp only [containsByte, Bool.or_eq_true, decide_eq_true_eq, ih,
        List.mem_cons]
      constructor
      · rintro (rfl | h)
        · exact Or.inl rfl
        · exact Or.inr h
      · rintro (rfl | h)
        · exact Or.inl rfl
        · exact Or.inr h

theorem containsByte_eq_false {b : Nat} {l : List Nat} :
    containsByte b l = false ↔ b ∉ l := by
  rw [← Bool.not_eq_true, containsByte_eq_true]

theorem b64Char_mem (n : Nat) : b64Char n ∈ b64Table := by
  unfold b64Char
  rcases h : b64Table.drop n with _ | ⟨x, xs⟩
  · simp only [List.headD]
    decide
  · have hx : x ∈ b64Table.drop n := by simp [h]
    simpa [List.headD] using List.mem_of_mem_drop hx

theorem base64Encode_mem {c : Nat} :
    ∀ {bs : List Nat}, c ∈ base64Encode bs → c ∈ b64Table ∨ c = 61 := by
  intro bs
  induction bs using base64Encode.induct with
  | case1 => simp [base64Encode]
  | case2 a =>
      intro h
      simp only [base64Encode, List.mem_cons, List.not_mem_nil, or_false] at h
      rcases h with h | h | h | h <;>
        first
          | exact Or.inl (h ▸ b64Char_mem _)
          | exact Or.inr h
  | case3 a b =>
      intro h
      simp only [base64Encode, List.mem_cons, List.not_mem_nil, or_false] at h
      rcases h with h | h | h | h <;>
        first
          | exact Or.inl (h ▸ b64Char_mem _)
          | exact Or.inr h
  | case4 a b d rest ih =>
      intro h
      simp only [base64Encode, List.mem_cons] at h
      rcases h with h | h | h | h | h
      · exact Or.inl (h ▸ b64Char_mem _)
      · exact Or.inl (h ▸ b64Char_mem _)
      · exact Or.inl (h ▸ b64Char_mem _)
      · exact Or.inl (h ▸ b64Char_mem _)
      · exact ih h

theorem taggedForm_mem {gz : List Nat → List Nat} {x : List Nat} {c : Nat}
    (h : c ∈ taggedForm gz x) :
    c ∈ b64Table ∨ c = 61 ∨ c ∈ bytesOf "B64GZ:" := by
  unfold taggedForm at h
  rcases List.mem_append.1 h with h1 | h2
  · right; right
    by_cases hp : (preDecoded x).isSome
    · simpa [hp] using h1
    · have : c ∈ bytesOf "GZ:" := by simpa [hp] using h1
      have hGZ : c = 71 ∨ c = 90 ∨ c = 58 := by
        simpa [bytesOf] using this
      show c ∈ bytesOf "B64GZ:"
      rcases hGZ with rfl | rfl | rfl <;> decide
  · rcases base64Encode_mem h2 with h | h
    · exact Or.inl h
    · exact Or.inr (Or.inl h)

theorem taggedForm_byte_props {gz : List Nat → List Nat} {x : List Nat}
    {c : Nat} (h : c ∈ taggedForm gz x) :
    c ≠ 10 ∧ c ≠ 13 ∧ c ≠ 60 ∧ c ≠ 62 := by
  rcases taggedForm_mem h with h | h | h
  · have hall : ∀ d ∈ b64Table, d ≠ 10 ∧ d ≠ 13 ∧ d ≠ 60 ∧ d ≠ 62 := by decide
    exact hall c h
  · subst h; decide
  · have hall : ∀ d ∈ bytesOf "B64GZ:", d ≠ 10 ∧ d ≠ 13 ∧ d ≠ 60 ∧ d ≠ 62 := by
      decide
    exact hall c h

theorem taggedForm_ne_nil (gz : List Nat → List Nat) (x : List Nat) :
    taggedForm gz x ≠ [] := by
  unfold taggedForm
  by_cases hp : (preDecoded x).isSome <;> simp [hp, bytesOf]

theorem b64DecodeGroups_colon2 (l : List Nat) :
    b64DecodeGroups (90 :: 58 :: l) = none := by
  match l with
  | [] => rfl
  | [e] => rfl
  | e :: f :: fs => rfl

theorem b64DecodeGroups_gzTag (l : List Nat) :
    b64DecodeGroups (71 :: 90 :: 58 :: l) = none := by
  match l with
  | [] => rfl
  | e :: es => rfl

theorem b64DecodeGroups_b64gzTag (l : List Nat) :
    b64DecodeGroups (66 :: 54 :: 52 :: 71 :: 90 :: 58 :: l) = none := by
  show (b64DecodeGroups (90 :: 58 :: l)).map _ = none
  rw [b64DecodeGroups_colon2]
  rfl

theorem base64Decode_taggedForm (gz : List Nat → List Nat) (x : List Nat) :
    base64Decode (taggedForm gz x) = none := by
  unfold base64Decode
  have hfilter :
      (taggedForm gz x).filter (fun c => decide (c ≠ 10) && decide (c ≠ 13)) =
        taggedForm gz x := by
    rw [List.filter_eq_self]
    intro a ha
    have hp := taggedForm_byte_props ha
    simp [hp.1, hp.2.1]
  rw [hfilter]
  unfold taggedForm
  by_cases hp : (preDecoded x).isSome
  · have hpre : bytesOf "B64GZ:" = [66, 54, 52, 71, 90, 58] := by decide
    simp only [hp, if_true, hpre, List.cons_append, List.nil_append]
    exact b64DecodeGroups_b64gzTag _
  · have hpre : bytesOf "GZ:" = [71, 90, 58] := by decide
    simp only [hp, if_false, hpre, List.cons_append, List.nil_append]
    exact b64DecodeGroups_gzTag _

theorem taggedForm_len_lt {gz : List Nat → List Nat} {x : List Nat}
    (h : ¬(taggedForm gz x).length ≥ 9 * x.length / 10) :
    (taggedForm gz x).length < x.length := by
  have hle : 9 * x.length / 10 ≤ x.length :=
    Nat.div_le_of_le_mul (by omega)
  omega

theorem decompress_of_b64_none {gunzip : List Nat → GunzipOut}
    {data : List Nat} (hne : data ≠ [])
    (h60 : containsByte ltByte data = false)
    (h62 : containsByte gtByte data = false)
    (hdec : base64Decode data = none) :
    decompressSaveData gunzip data = .ok data := by
  simp [decompressSaveData, hne, h60, h62, hdec]

theorem taggedForm_no_lt (gz : List Nat → List Nat) (x : List Nat) :
    containsByte ltByte (taggedForm gz x) = false :=
  containsByte_eq_false.mpr fun hm => (taggedForm_byte_props hm).2.2.1 rfl

theorem taggedForm_no_gt (gz : List Nat → List Nat) (x : List Nat) :
    containsByte gtByte (taggedForm gz x) = false :=
  containsByte_eq_false.mpr fun hm => (taggedForm_byte_props hm).2.2.2 rfl

/-! ### Claim theorems: the codec (C1, C7, C10) -/

/-- C1: the round-trip law `Decode(Encode(x)) == x` fails on the code.
Whenever `compressData` chooses its tagged compressed form (a `GZ:` or
`B64GZ:` prefix plus base64), `decompressSaveData` from `load.go` hands
the stored blob back unchanged — its base64 decoding dies on the `:`
byte of the tag and the function falls back to returning its input — and
that blob is strictly shorter than the original, so the round trip never
reconstructs `x`.  This holds for every gzip compressor and reader. -/
theorem compressData_decompressSaveData_roundtrip_fails
    (gz : List Nat → List Nat) (gunzip : List Nat → GunzipOut)
    (x : List Nat) (h : compressData gz x ≠ x) :
    decompressSaveData gunzip (compressData gz x) = .ok (compressData gz x) ∧
      decompressSaveData gunzip (compressData gz x) ≠ .ok x := by
  have hx : x ≠ [] := by
    intro hnil
    exact h (by simp [compressData, hnil])
  have hth : ¬(taggedForm gz x).length ≥ 9 * x.length / 10 := by
    intro hge
    exact h (by simp [compressData, hx, hge])
  have hcomp : compressData gz x = taggedForm gz x := by
    simp [compressData, hx, hth]
  have hres : decompressSaveData gunzip (taggedForm gz x) =
      .ok (taggedForm gz x) :=
    decompress_of_b64_none (taggedForm_ne_nil gz x) (taggedForm_no_lt gz x)
      (taggedForm_no_gt gz x) (base64Decode_taggedForm gz x)
  refine ⟨by rw [hcomp]; exact hres, ?_⟩
  rw [hcomp, hres]
  intro hc
  have heq : taggedForm gz x = x := by simpa using hc
  have hlt := taggedForm_len_lt hth
  rw [heq] at hlt
  omega

/-- Closed instance of C1: with a stub compressor the 9-byte input
`<aaaaaaa>` is stored as `GZ:AA==`, and decoding returns that tagged
string rather than the input. -/
theorem compressData_decompressSaveData_roundtrip_fails_witness :
    compressData (fun _ => [0]) (bytesOf "<aaaaaaa>") ≠ bytesOf "<aaaaaaa>" ∧
      decompressSaveData (fun _ => GunzipOut.headerErr)
          (compressData (fun _ => [0]) (bytesOf "<aaaaaaa>")) ≠
        .ok (bytesOf "<aaaaaaa>") :=
  ⟨by decide,
    (compressData_decompressSaveData_roundtrip_fails _ _ _ (by decide)).2⟩

/-- C7: when the tagged, re-encoded representation is not at least 10%
smaller than the input (its length reaches the `int(0.9*len)` threshold),
`compressData` returns the input verbatim; and in every case the stored
form is the input itself or strictly smaller than it. -/
theorem compressData_fallback_spec (gz : List Nat → List Nat)
    (x : List Nat) :
    ((taggedForm gz x).length ≥ 9 * x.length / 10 → compressData gz x = x) ∧
      (compressData gz x = x ∨ (compressData gz x).length < x.length) := by
  by_cases hx : x = []
  · subst hx
    simp [compressData]
  · by_cases hth : (taggedForm gz x).length ≥ 9 * x.length / 10
    · exact ⟨fun _ => by simp [compressData, hx, hth],
        Or.inl (by simp [compressData, hx, hth])⟩
    · refine ⟨fun hge => absurd hge hth, Or.inr ?_⟩
      rw [show compressData gz x = taggedForm gz x by
        simp [compressData, hx, hth]]
      exact taggedForm_len_lt hth

/-- Closed instance of C7: a stub compressor that inflates `<ab>` to 30
bytes misses the 10% saving, and the input is stored verbatim. -/
theorem compressData_fallback_spec_witness :
    (taggedForm (fun _ => List.replicate 30 0) (bytesOf "<ab>")).length ≥
        9 * (bytesOf "<ab>").length / 10 ∧
      compressData (fun _ => List.replicate 30 0) (bytesOf "<ab>") =
        bytesOf "<ab>" :=
  ⟨by decide, (compressData_fallback_spec _ _).1 (by decide)⟩

/-- C10: `decompressSaveData` fails only on angle-free input that
base64-decodes and then dies inside the gzip body read; the empty string
maps to the empty string; every other failure mode (angle bracket
present, base64 failure, bad gzip header) returns the input unchanged
with no error. -/
theorem decompressSaveData_total_spec (gunzip : List Nat → GunzipOut)
    (data : List Nat) :
    (decompressSaveData gunzip data = .error () ↔
      data ≠ [] ∧ containsByte ltByte data = false ∧
        containsByte gtByte data = false ∧
        ∃ b, base64Decode data = some b ∧ gunzip b = .readErr) ∧
      decompressSaveData gunzip [] = .ok [] ∧
      (containsByte ltByte data = true ∨ containsByte gtByte data = true →
        decompressSaveData gunzip data = .ok data) ∧
      (containsByte ltByte data = false → containsByte gtByte data = false →
        base64Decode data = none → decompressSaveData gunzip data = .ok data) ∧
      (∀ b, base64Decode data = some b → gunzip b = .headerErr →
        decompressSaveData gunzip data = .ok data) := by
  refine ⟨?_, by simp [decompressSaveData], ?_, ?_, ?_⟩
  · by_cases hd : data = []
    · subst hd
      simp [decompressSaveData]
    · by_cases h60 : containsByte ltByte data = true
      · simp [decompressSaveData, hd, h60]
      · by_cases h62 : containsByte gtByte data = true
        · simp [decompressSaveData, hd, h60, h62]
        · rcases hb : base64Decode data with _ | b
          · simp [decompressSaveData, hd, h60, h62, hb]
          · rcases hg : gunzip b with _ | _ | payload <;>
              simp [decompressSaveData, hd, h60, h62, hb, hg,
                Bool.not_eq_true]
  · intro h
    have hd : data ≠ [] := by
      rcases h with h | h <;> intro hnil <;> subst hnil <;>
        simp [containsByte] at h
    rcases h with h | h
    · simp [decompressSaveData, hd, h]
    · simp [decompressSaveData, hd, h]
  · intro h60 h62 hb
    by_cases hd : data = []
    · subst hd
      simp [base64Decode, b64DecodeGroups] at hb
    · simp [decompressSaveData, hd, h60, h62, hb]
  · intro b hb hg
    by_cases hd : data = []
    · subst hd
      simp [decompressSaveData]
    · by_cases h60 : containsByte ltByte data = true
      · simp [decompressSaveData, hd, h60]
      · by_cases h62 : containsByte gtByte data = true
        · simp [decompressSaveData, hd, h60, h62]
        · simp [decompressSaveData, hd, h60, h62, hb, hg,
            Bool.not_eq_true]

/-- Closed instance of C10: the one error case, hit on `QUJD` (base64 of
`ABC`) with a reader that accepts the header and fails on the body. -/
theorem decompressSaveData_total_spec_witness :
    decompressSaveData (fun _ => GunzipOut.readErr) (bytesOf "QUJD") =
      .error () :=
  (decompressSaveData_total_spec _ _).1.mpr
    ⟨by decide, by decide, by decide, bytesOf "ABC", by decide, rfl⟩

/-! ### Claim theorem: the retrying writer (C5) -/

/-- C5: `execWithRetries` makes between 1 and 3 attempts; every retried
attempt failed with a transient error, was not the third attempt, and its
wait was not cancelled; the completed waits are 200ms then 400ms; a
cancellation during a wait returns the context's error; a failed run
returns the last attempt's error untouched, that error being permanent or
the attempt the third; a successful run ends on a successful attempt. -/
theorem execWithRetriesGo_spec (o : RetryOracle) :
    (1 ≤ (execWithRetriesGo o).2.1 ∧ (execWithRetriesGo o).2.1 ≤ 3) ∧
      (∀ k, 1 ≤ k → k < (execWithRetriesGo o).2.1 →
        ∃ e, o.execRes k = some e ∧ isTransientErr e = true ∧ k < 3 ∧
          o.cancelledDuringWait k = false) ∧
      (execWithRetriesGo o).2.2 =
        (List.range ((execWithRetriesGo o).2.1 - 1)).map
          (fun i => 200 * 2 ^ i) ∧
      (∀ e, (execWithRetriesGo o).1 = .cancelled e →
        e = o.ctxErr ∧
          o.cancelledDuringWait (execWithRetriesGo o).2.1 = true) ∧
      (∀ e, (execWithRetriesGo o).1 = .failed e →
        o.execRes (execWithRetriesGo o).2.1 = some e ∧
          (isTransientErr e = false ∨ (execWithRetriesGo o).2.1 = 3)) ∧
      ((execWithRetriesGo o).1 = .success →
        o.execRes (execWithRetriesGo o).2.1 = none) := by
  rcases he1 : o.execRes 1 with _ | e1
  · have hrun : execWithRetriesGo o = (.success, 1, []) := by
      simp [execWithRetriesGo, retryFrom, he1]
    refine ⟨by simp [hrun], fun k hk1 hk2 => ?_, by simp [hrun],
      fun e he => ?_, fun e he => ?_, fun _ => by simp [hrun, he1]⟩
    · simp [hrun] at hk2; omega
    · simp [hrun] at he
    · simp [hrun] at he
  · by_cases ht1 : isTransientErr e1 = true
    · by_cases hc1 : o.cancelledDuringWait 1 = true
      · have hrun : execWithRetriesGo o = (.cancelled o.ctxErr, 1, []) := by
          simp [execWithRetriesGo, retryFrom, he1, ht1, hc1]
        refine ⟨by simp [hrun], fun k hk1 hk2 => ?_, by simp [hrun],
          fun e he => ?_, fun e he => ?_, fun hs => ?_⟩
        · simp [hrun] at hk2; omega
        · simp [hrun] at he
          exact ⟨he.symm, by rw [hrun]; exact hc1⟩
        · simp [hrun] at he
        · simp [hrun] at hs
      · simp only [Bool.not_eq_true] at hc1
        rcases he2 : o.execRes 2 with _ | e2
        · have hrun : execWithRetriesGo o = (.success, 2, [200]) := by
            simp [execWithRetriesGo, retryFrom, he1, ht1, hc1, he2]
          refine ⟨by simp [hrun], fun k hk1 hk2 => ?_,
            by rw [hrun]
               show [200] = List.map (fun i => 200 * 2 ^ i) (List.range 1)
               decide,
            fun e he => ?_, fun e he => ?_, fun _ => by simp [hrun, he2]⟩
          · simp [hrun] at hk2
            interval_cases k
            exact ⟨e1, he1, ht1, by omega, hc1⟩
          · simp [hrun] at he
          · simp [hrun] at he
        · by_cases ht2 : isTransientErr e2 = true
          · by_cases hc2 : o.cancelledDuringWait 2 = true
            · have hrun : execWithRetriesGo o =
                  (.cancelled o.ctxErr, 2, [200]) := by
                simp [execWithRetriesGo, retryFrom, he1, ht1, hc1, he2, ht2,
                  hc2]
              refine ⟨by simp [hrun], fun k hk1 hk2 => ?_,
                by rw [hrun]
                   show [200] = List.map (fun i => 200 * 2 ^ i) (List.range 1)
                   decide,
                fun e he => ?_, fun e he => ?_, fun hs => ?_⟩
              · simp [hrun] at hk2
                interval_cases k
                exact ⟨e1, he1, ht1, by omega, hc1⟩
              · simp [hrun] at he
                exact ⟨he.symm, by rw [hrun]; exact hc2⟩
              · simp [hrun] at he
              · simp [hrun] at hs
            · simp only [Bool.not_eq_true] at hc2
              rcases he3 : o.execRes 3 with _ | e3
              · have hrun : execWithRetriesGo o =
                    (.success, 3, [200, 400]) := by
                  simp [execWithRetriesGo, retryFrom, he1, ht1, hc1, he2,
                    ht2, hc2, he3]
                refine ⟨by simp [hrun], fun k hk1 hk2 => ?_,
                  by rw [hrun]
                     show [200, 400] =
                       List.map (fun i => 200 * 2 ^ i) (List.range 2)
                     decide,
                  fun e he => ?_, fun e he => ?_,
                  fun _ => by simp [hrun, he3]⟩
                · simp [hrun] at hk2
                  interval_cases k
                  · exact ⟨e1, he1, ht1, by omega, hc1⟩
                  · exact ⟨e2, he2, ht2, by omega, hc2⟩
                · simp [hrun] at he
                · simp [hrun] at he
              · have hrun : execWithRetriesGo o =
                    (.failed e3, 3, [200, 400]) := by
                  simp [execWithRetriesGo, retryFrom, he1, ht1, hc1, he2,
                    ht2, hc2, he3]
                refine ⟨by simp [hrun], fun k hk1 hk2 => ?_,
                  by rw [hrun]
                     show [200, 400] =
                       List.map (fun i => 200 * 2 ^ i) (List.range 2)
                     decide,
                  fun e he => ?_, fun e he => ?_, fun hs => ?_⟩
                · simp [hrun] at hk2
                  interval_cases k
                  · exact ⟨e1, he1, ht1, by omega, hc1⟩
                  · exact ⟨e2, he2, ht2, by omega, hc2⟩
                · simp [hrun] at he
                · rw [hrun] at he ⊢
                  simp only [RetryResult.failed.injEq] at he
                  subst he
                  exact ⟨he3, Or.inr rfl⟩
                · simp [hrun] at hs
          · simp only [Bool.not_eq_true] at ht2
            have hrun : execWithRetriesGo o = (.failed e2, 2, [200]) := by
              simp [execWithRetriesGo, retryFrom, he1, ht1, hc1, he2, ht2]
            refine ⟨by simp [hrun], fun k hk1 hk2 => ?_,
              by rw [hrun]
                 show [200] = List.map (fun i => 200 * 2 ^ i) (List.range 1)
                 decide,
              fun e he => ?_, fun e he => ?_, fun hs => ?_⟩
            · simp [hrun] at hk2
              interval_cases k
              exact ⟨e1, he1, ht1, by omega, hc1⟩
            · simp [hrun] at he
            · rw [hrun] at he ⊢
              simp only [RetryResult.failed.injEq] at he
              subst he
              exact ⟨he2, Or.inl ht2⟩
            · simp [hrun] at hs
    · simp only [Bool.not_eq_true] at ht1
      have hrun : execWithRetriesGo o = (.failed e1, 1, []) := by
        simp [execWithRetriesGo, retryFrom, he1, ht1]
      refine ⟨by simp [hrun], fun k hk1 hk2 => ?_, by simp [hrun],
        fun e he => ?_, fun e he => ?_, fun hs => ?_⟩
      · simp [hrun] at hk2; omega
      · simp [hrun] at he
      · rw [hrun] at he ⊢
        simp only [RetryResult.failed.injEq] at he
        subst he
        exact ⟨he1, Or.inl ht1⟩
      · simp [hrun] at hs

/-- Closed instance of C5: two transient bad-connection failures then a
success make 3 attempts with the 200ms and 400ms waits completed. -/
theorem execWithRetriesGo_spec_witness :
    (execWithRetriesGo
        ⟨fun n => if n = 3 then none else some ⟨true, []⟩,
          fun _ => false, ⟨false, []⟩⟩).2.2 = [200, 400] ∧
      (execWithRetriesGo
        ⟨fun n => if n = 3 then none else some ⟨true, []⟩,
          fun _ => false, ⟨false, []⟩⟩).1 = .success := by
  have hrun : execWithRetriesGo
      ⟨fun n => if n = 3 then none else some ⟨true, []⟩,
        fun _ => false, ⟨false, []⟩⟩ = (.success, 3, [200, 400]) := by
    simp [execWithRetriesGo, retryFrom, isTransientErr]
  have h := (execWithRetriesGo_spec
      ⟨fun n => if n = 3 then none else some ⟨true, []⟩,
        fun _ => false, ⟨false, []⟩⟩).2.2.1
  exact ⟨by rw [hrun], by rw [hrun]⟩

/-! ### Claim theorem: the rate limiter (C8) -/

/-- C8: with a non-empty account and a positive interval, a save request
is rejected exactly when the recorded prior allowed request is less than
the interval old; on allowance the per-account timestamp becomes `now`;
on rejection the map is untouched; interval 0 disables throttling; and
the map after the full request is the gate's map whether or not the
downstream write fails — allowance is consumed before the write. -/
theorem rateAllow_spec (sec : Nat) (lastMap : List Nat → Option Int)
    (acct : List Nat) (now : Int) :
    (acct ≠ [] → 0 < sec →
      ((rateAllow sec lastMap acct now).1 = false ↔
        ∃ t', lastMap acct = some t' ∧ now - t' < (sec : Int) * nsPerSec) ∧
      ((rateAllow sec lastMap acct now).1 = true →
        (rateAllow sec lastMap acct now).2 acct = some now) ∧
      ((rateAllow sec lastMap acct now).1 = false →
        (rateAllow sec lastMap acct now).2 = lastMap)) ∧
      (sec = 0 → rateAllow sec lastMap acct now = (true, lastMap)) ∧
      (∀ writeFails, (saveWithRate sec lastMap acct now writeFails).2 =
        (rateAllow sec lastMap acct now).2) := by
  refine ⟨fun ha hs => ?_, fun h0 => by simp [rateAllow, h0], fun wf => ?_⟩
  · rcases hm : lastMap acct with _ | t'
    · have hrun : rateAllow sec lastMap acct now =
          (true, fun a => if a = acct then some now else lastMap a) := by
        simp only [rateAllow, hm]
        rw [if_pos ⟨ha, hs⟩]
      refine ⟨?_, fun _ => by simp [hrun], fun hfalse => ?_⟩
      · rw [hrun]
        simp only [Bool.true_eq_false, false_iff]
        rintro ⟨t'', ht'', _⟩
        cases ht''
      · rw [hrun] at hfalse
        cases hfalse
    · by_cases hlt : now - t' < (sec : Int) * nsPerSec
      · have hrun : rateAllow sec lastMap acct now = (false, lastMap) := by
          simp only [rateAllow, hm]
          rw [if_pos ⟨ha, hs⟩]
          simp [hlt]
        refine ⟨?_, fun htrue => ?_, fun _ => by rw [hrun]⟩
        · rw [hrun]
          exact ⟨fun _ => ⟨t', rfl, hlt⟩, fun _ => rfl⟩
        · rw [hrun] at htrue
          cases htrue
      · have hrun : rateAllow sec lastMap acct now =
            (true, fun a => if a = acct then some now else lastMap a) := by
          simp only [rateAllow, hm]
          rw [if_pos ⟨ha, hs⟩]
          simp [hlt]
        refine ⟨?_, fun _ => by simp [hrun], fun hfalse => ?_⟩
        · rw [hrun]
          simp only [Bool.true_eq_false, false_iff]
          rintro ⟨t'', ht'', hlt''⟩
          cases ht''
          exact absurd hlt'' hlt
        · rw [hrun] at hfalse
          cases hfalse
  · simp only [saveWithRate]
    by_cases hg : (rateAllow sec lastMap acct now).1 <;> simp [hg]

/-- Closed instance of C8: with a 10-second interval, an allowed save at
time 0, a rejected retry at 5 seconds, and an allowed one at 11
seconds. -/
theorem rateAllow_spec_witness :
    (rateAllow 10 (fun _ => none) (bytesOf "u1") 0).1 = true ∧
      (rateAllow 10 ((rateAllow 10 (fun _ => none) (bytesOf "u1") 0).2)
          (bytesOf "u1") (5 * nsPerSec)).1 = false ∧
      (rateAllow 10 ((rateAllow 10 (fun _ => none) (bytesOf "u1") 0).2)
          (bytesOf "u1") (11 * nsPerSec)).1 = true :=
  ⟨by decide,
    ((rateAllow_spec 10 _ _ _).1 (by decide) (by decide)).1.mpr
      ⟨0, by decide, by decide⟩,
    by decide⟩

/-! ### Claim theorem: the retention sweep (C9) -/

theorem mem_cleanupPairs {now : Int} {db : StoreDB} {a : Account}
    {s : SaveRow} :
    (a, s) ∈ cleanupPairs now db ↔
      a ∈ db.accounts ∧ s ∈ db.saves ∧ s.accountId = a.id ∧
        oldSave now s = true := by
  simp only [cleanupPairs, List.mem_flatMap, List.mem_map, List.mem_filter,
    Bool.and_eq_true, decide_eq_true_eq, Prod.mk.injEq]
  constructor
  · rintro ⟨a', ha', s', ⟨hs', hid, hold⟩, rfl, rfl⟩
    exact ⟨ha', hs', hid, hold⟩
  · rintro ⟨ha, hs, hid, hold⟩
    exact ⟨a, ha, s, ⟨hs, hid, hold⟩, rfl, rfl⟩

/-- C9: a sweep removes exactly the save rows older than 100 days (their
owning accounts along with them, every save having an owner), and reports
the total number of removed rows across both tables. -/
theorem runCleanup_spec (now : Int) (db : StoreDB)
    (hFK : ∀ s ∈ db.saves, ∃ a ∈ db.accounts, a.id = s.accountId) :
    (runCleanup now db).1.saves =
        db.saves.filter (fun s => !oldSave now s) ∧
      (runCleanup now db).1.accounts =
        db.accounts.filter (fun a =>
          !db.saves.any (fun s => s.accountId = a.id && oldSave now s)) ∧
      (runCleanup now db).2 =
        (db.accounts.length - (runCleanup now db).1.accounts.length) +
          (db.saves.length - (runCleanup now db).1.saves.length) := by
  refine ⟨?_, ?_, rfl⟩
  · show db.saves.filter _ = db.saves.filter _
    apply List.filter_congr
    intro s hs
    rcases hFK s hs with ⟨a, ha, hid⟩
    by_cases hold : oldSave now s = true
    · have : (cleanupPairs now db).any (fun p => p.2 = s) = true := by
        rw [List.any_eq_true]
        exact ⟨(a, s), mem_cleanupPairs.mpr ⟨ha, hs, hid.symm, hold⟩,
          by simp⟩
      simp [this, hold]
    · have : (cleanupPairs now db).any (fun p => p.2 = s) = false := by
        rw [← Bool.not_eq_true, List.any_eq_true]
        rintro ⟨⟨a', s'⟩, hmem, heq⟩
        simp only [decide_eq_true_eq] at heq
        subst heq
        exact hold (mem_cleanupPairs.mp hmem).2.2.2
      simp [this, Bool.not_eq_true] at hold ⊢
      simp [hold]
  · show db.accounts.filter _ = db.accounts.filter _
    apply List.filter_congr
    intro a ha
    by_cases hx : (cleanupPairs now db).any (fun p => p.1 = a) = true
    · rw [List.any_eq_true] at hx
      rcases hx with ⟨⟨a', s'⟩, hmem, heq⟩
      simp only [decide_eq_true_eq] at heq
      rcases mem_cleanupPairs.mp hmem with ⟨ha', hs', hid, hold⟩
      have h2 : db.saves.any (fun s => s.accountId = a.id && oldSave now s) =
          true := by
        rw [List.any_eq_true]
        refine ⟨s', hs', ?_⟩
        simp [hid, ← heq, hold]
      have h1 : (cleanupPairs now db).any (fun p => p.1 = a) = true := by
        rw [List.any_eq_true]
        exact ⟨(a', s'), hmem, by simp [heq]⟩
      simp [h1, h2]
    · have h2 : db.saves.any (fun s => s.accountId = a.id && oldSave now s) =
          false := by
        rw [← Bool.not_eq_true, List.any_eq_true]
        rintro ⟨s, hs, hcond⟩
        simp only [Bool.and_eq_true, decide_eq_true_eq] at hcond
        apply hx
        rw [List.any_eq_true]
        exact ⟨(a, s), mem_cleanupPairs.mpr ⟨ha, hs, hcond.1, hcond.2⟩,
          by simp⟩
      simp only [Bool.not_eq_true] at hx
      simp [hx, h2]

/-- Closed instance of C9: at sweep time 0 a save from 101 days ago is
removed together with its account (2 rows reported) while a save from 99
days ago is retained. -/
theorem runCleanup_spec_witness :
    (runCleanup 0 ⟨[⟨bytesOf "u1"⟩, ⟨bytesOf "u2"⟩],
        [⟨bytesOf "u1", -101 * dayNs⟩, ⟨bytesOf "u2", -99 * dayNs⟩]⟩).1 =
        ⟨[⟨bytesOf "u2"⟩], [⟨bytesOf "u2", -99 * dayNs⟩]⟩ ∧
      (runCleanup 0 ⟨[⟨bytesOf "u1"⟩, ⟨bytesOf "u2"⟩],
        [⟨bytesOf "u1", -101 * dayNs⟩, ⟨bytesOf "u2", -99 * dayNs⟩]⟩).2 = 2 := by
  have h := runCleanup_spec 0
    ⟨[⟨bytesOf "u1"⟩, ⟨bytesOf "u2"⟩],
      [⟨bytesOf "u1", -101 * dayNs⟩, ⟨bytesOf "u2", -99 * dayNs⟩]⟩
    (by decide)
  exact ⟨by decide, by decide⟩

/-! ### Claim theorem: the quota gate (C6) -/

/-- C6: the save segment computes the proposed total as the new payload
size where one is supplied and the currently stored size otherwise; a
proposal over quota is rejected with `(limit = quota, required =
proposed)` and the stored blobs untouched; a proposal at or under quota
passes the gate, and with the packet bounds met and the writes succeeding
the provided fields are updated. -/
theorem saveQuotaSegment_spec (o : SaveOracle) (maxDataSize maxPacket : Nat)
    (st : Option (List Nat × List Nat)) (save level : List Nat)
    (hEnsure : o.ensureErr = none) (hSize : o.sizeLookupErr = none) :
    ((if save ≠ [] then save.length else (st.getD ([], [])).1.length) +
        (if level ≠ [] then level.length else (st.getD ([], [])).2.length) >
          maxDataSize →
      saveQuotaSegment o maxDataSize maxPacket st save level =
        (.quotaExceeded maxDataSize
          ((if save ≠ [] then save.length else (st.getD ([], [])).1.length) +
            (if level ≠ [] then level.length
              else (st.getD ([], [])).2.length)),
          some (st.getD ([], [])))) ∧
      ((if save ≠ [] then save.length else (st.getD ([], [])).1.length) +
          (if level ≠ [] then level.length else (st.getD ([], [])).2.length) ≤
            maxDataSize →
        save.length ≤ maxPacket → level.length ≤ maxPacket →
        o.saveWriteErr = none → o.levelWriteErr = none →
        saveQuotaSegment o maxDataSize maxPacket st save level =
          (.okResp,
            some (if save ≠ [] then save else (st.getD ([], [])).1,
              if level ≠ [] then level else (st.getD ([], [])).2))) := by
  constructor
  · intro hover
    simp only [saveQuotaSegment, hEnsure, hSize]
    rw [if_pos hover]
  · intro hunder hps hpl hws hwl
    have hnot : ¬((if save ≠ [] then save.length
        else (st.getD ([], [])).1.length) +
        (if level ≠ [] then level.length
          else (st.getD ([], [])).2.length) > maxDataSize) := by omega
    simp only [saveQuotaSegment, hEnsure, hSize]
    rw [if_neg hnot]
    by_cases hsv : save = []
    · subst hsv
      simp only [saveUpdatePart, ne_eq, not_true_eq_false, if_neg,
        reduceIte]
      by_cases hlv : level = []
      · subst hlv
        simp [levelUpdatePart]
      · have hple : ¬level.length > maxPacket := by omega
        simp [levelUpdatePart, hlv, hple, hwl]
    · have hpse : ¬save.length > maxPacket := by omega
      simp only [saveUpdatePart, ne_eq, hsv, not_false_eq_true, if_pos,
        reduceIte, hpse, hws]
      by_cases hlv : level = []
      · subst hlv
        simp [levelUpdatePart, hsv]
      · have hple : ¬level.length > maxPacket := by omega
        simp [levelUpdatePart, hsv, hlv, hple, hwl]

/-- Closed instance of C6: quota 10 with stored sizes (3, 2); replacing
the save blob with 8 bytes proposes exactly 10 and succeeds, while 9
bytes propose 11 and are rejected with limit 10 and required 11. -/
theorem saveQuotaSegment_spec_witness :
    saveQuotaSegment ⟨none, none, none, none⟩ 10 100
        (some (bytesOf "abc", bytesOf "de")) (bytesOf "abcdefgh") [] =
      (.okResp, some (bytesOf "abcdefgh", bytesOf "de")) ∧
      saveQuotaSegment ⟨none, none, none, none⟩ 10 100
          (some (bytesOf "abc", bytesOf "de")) (bytesOf "abcdefghi") [] =
        (.quotaExceeded 10 11, some (bytesOf "abc", bytesOf "de")) := by
  constructor
  · have h := (saveQuotaSegment_spec ⟨none, none, none, none⟩ 10 100
      (some (bytesOf "abc", bytesOf "de")) (bytesOf "abcdefgh") [] rfl rfl).2
      (by decide) (by decide) (by decide) rfl rfl
    exact h.trans (by decide)
  · have h := (saveQuotaSegment_spec ⟨none, none, none, none⟩ 10 100
      (some (bytesOf "abc", bytesOf "de")) (bytesOf "abcdefghi") [] rfl
      rfl).1 (by decide)
    exact h.trans (by decide)

/-! ### Claim theorems: the credential validator (C2, C3, C4) -/

/-- Counterexample to C2 as stated: for an account id with no Account
row, the validator inserts a row with the presented credential and
returns Valid without ever contacting the remote authority, even though
the authority is configured and would answer. -/
theorem validateArgonToken_unknown_account_skips_remote :
    (validateArgonToken
        ⟨none, none, .noRows, none, none, true, .ok ⟨200, none, .ok false⟩,
          none⟩ 0 ⟨none⟩ (bytesOf "tok")).out = .valid ∧
      (validateArgonToken
        ⟨none, none, .noRows, none, none, true, .ok ⟨200, none, .ok false⟩,
          none⟩ 0 ⟨none⟩ (bytesOf "tok")).remoteCalled = false ∧
      (validateArgonToken
        ⟨none, none, .noRows, none, none, true, .ok ⟨200, none, .ok false⟩,
          none⟩ 0 ⟨none⟩ (bytesOf "tok")).st =
        ⟨some (some (bytesOf "tok"), none)⟩ := by
  refine ⟨rfl, rfl, rfl⟩

/-- C2 (amended): an unknown account is created with the presented
credential and accepted without any remote call (an insert failure is an
Error); a stored-credential mismatch is Invalid without a remote call or
mutation; only for a matching but stale credential with the authority
configured is the remote called, and then a clear negative answer yields
Invalid without mutating state while a clear positive answer updates the
verification timestamp to now and yields Valid. -/
theorem validateArgonToken_amended_spec (o : AuthOracle) (now : Int)
    (st : AuthState) (token : List Nat) (hscan : o.scanFail = none) :
    (st.row = none → o.insertErr = none →
      validateArgonToken o now st token =
        ⟨.valid, ⟨some (some token, none)⟩, false⟩) ∧
      (st.row = none → ∀ e, o.insertErr = some e →
        validateArgonToken o now st token =
          ⟨.errOut (.insertFail e), st, false⟩) ∧
      (∀ stok vat, st.row = some (stok, vat) → stok ≠ some token →
        validateArgonToken o now st token = ⟨.invalid, st, false⟩) ∧
      (∀ vat, st.row = some (some token, vat) →
        (∀ t, vat = some t → ttlNs < now - t) →
        o.argonConfigured = true → o.newReqErr = none →
        ∀ resp, o.remote = .ok resp → resp.statusCode = 200 →
          resp.readErr = none →
          (resp.parse = .ok false →
            validateArgonToken o now st token = ⟨.invalid, st, true⟩) ∧
          (resp.parse = .ok true → o.updateErr = none →
            validateArgonToken o now st token =
              ⟨.valid, ⟨some (some token, some now)⟩, true⟩)) := by
  refine ⟨fun hrow hins => ?_, fun hrow e hins => ?_,
    fun stok vat hrow hne => ?_, fun vat hrow hstale hcfg hreq resp hrem
      hcode hread => ⟨fun hparse => ?_, fun hparse hupd => ?_⟩⟩
  · simp [validateArgonToken, hscan, hrow, hins]
  · simp [validateArgonToken, hscan, hrow, hins]
  · simp [validateArgonToken, hscan, hrow, hne]
  · rcases vat with _ | u
    · simp [validateArgonToken, hscan, hrow, hcfg, hreq, hrem, hcode,
        hread, hparse]
    · have hst : ¬(now - u ≤ ttlNs) := by
        have := hstale u rfl
        omega
      simp [validateArgonToken, hscan, hrow, hst, hcfg, hreq, hrem, hcode,
        hread, hparse]
  · rcases vat with _ | u
    · simp [validateArgonToken, hscan, hrow, hcfg, hreq, hrem, hcode,
        hread, hparse, hupd]
    · have hst : ¬(now - u ≤ ttlNs) := by
        have := hstale u rfl
        omega
      simp [validateArgonToken, hscan, hrow, hst, hcfg, hreq, hrem, hcode,
        hread, hparse, hupd]

/-- Closed instance of the amended C2: a known stale account with a
matching token gets a remote negative answer and is rejected without
mutation. -/
theorem validateArgonToken_amended_spec_witness :
    validateArgonToken
        ⟨none, none, .noRows, none, none, true, .ok ⟨200, none, .ok false⟩,
          none⟩ 0 ⟨some (some (bytesOf "tok"), none)⟩ (bytesOf "tok") =
      ⟨.invalid, ⟨some (some (bytesOf "tok"), none)⟩, true⟩ :=
  ((validateArgonToken_amended_spec _ 0 _ _ rfl).2.2.2 none rfl
    (fun t ht => by cases ht) rfl rfl _ rfl rfl rfl).1 rfl

/-- C3: a cached verification fresher than the 5-minute TTL with a
matching credential is accepted without contacting the remote authority;
and after a first call that did consult the authority (stale cache,
positive answer, timestamp update), a second call within the TTL window
is accepted with no further remote call — exactly one remote call across
the pair. -/
theorem validateArgonToken_ttl_spec (o1 o2 : AuthOracle) (now1 now2 : Int)
    (st : AuthState) (token : List Nat) (t : Int)
    (h1 : o1.scanFail = none) (h2 : o2.scanFail = none) :
    (st.row = some (some token, some t) → now1 - t ≤ ttlNs →
      validateArgonToken o1 now1 st token = ⟨.valid, st, false⟩) ∧
      (st.row = some (some token, some t) → ttlNs < now1 - t →
        o1.argonConfigured = true → o1.newReqErr = none →
        ∀ resp, o1.remote = .ok resp → resp.statusCode = 200 →
          resp.readErr = none → resp.parse = .ok true → o1.updateErr = none →
          now2 - now1 ≤ ttlNs →
          (validateArgonToken o1 now1 st token).remoteCalled = true ∧
            (validateArgonToken o1 now1 st token).out = .valid ∧
            validateArgonToken o2 now2
                (validateArgonToken o1 now1 st token).st token =
              ⟨.valid, (validateArgonToken o1 now1 st token).st, false⟩) := by
  constructor
  · intro hrow hfresh
    simp [validateArgonToken, h1, hrow, hfresh]
  · intro hrow hstale hcfg hreq resp hrem hcode hread hparse hupd hwin
    have hrun : validateArgonToken o1 now1 st token =
        ⟨.valid, ⟨some (some token, some now1)⟩, true⟩ :=
      ((validateArgonToken_amended_spec o1 now1 st token h1).2.2.2
        (some t) hrow (fun u hu => by cases hu; exact hstale) hcfg hreq
        resp hrem hcode hread).2 hparse hupd
    refine ⟨by rw [hrun], by rw [hrun], ?_⟩
    rw [hrun]
    simp [validateArgonToken, h2, hwin]

/-- Closed instance of C3: a verification 1 second old is accepted from
cache with no remote call. -/
theorem validateArgonToken_ttl_spec_witness :
    validateArgonToken
        ⟨none, none, .noRows, none, none, true, .ok ⟨200, none, .ok false⟩,
          none⟩ (nsPerSec) ⟨some (some (bytesOf "tok"), some 0)⟩
        (bytesOf "tok") =
      ⟨.valid, ⟨some (some (bytesOf "tok"), some 0)⟩, false⟩ :=
  (validateArgonToken_ttl_spec _
      ⟨none, none, .noRows, none, none, true, .ok ⟨200, none, .ok false⟩,
        none⟩ nsPerSec 0 _ _ 0 rfl rfl).1 rfl (by decide)

/-- C4: on every run that reaches the remote authority, a network
failure, a non-200 status, an unreadable body or an unparseable body
yields the Error outcome, never Invalid; and an Invalid outcome arises
only from a definitive source: a stored-credential mismatch (no remote
call), an account found absent after recreating a missing accounts table
(no remote call), or the authority's definitive negative answer. -/
theorem validateArgonToken_error_spec (o : AuthOracle) (now : Int)
    (st : AuthState) (token : List Nat) :
    (∀ vat, o.scanFail = none → st.row = some (some token, vat) →
      (∀ u, vat = some u → ttlNs < now - u) → o.argonConfigured = true →
      o.newReqErr = none →
      (∀ e, o.remote = .error e →
        validateArgonToken o now st token = ⟨.errOut (.net e), st, true⟩) ∧
      (∀ resp, o.remote = .ok resp → resp.statusCode ≠ 200 →
        validateArgonToken o now st token =
          ⟨.errOut (.http resp.statusCode), st, true⟩) ∧
      (∀ resp e, o.remote = .ok resp → resp.statusCode = 200 →
        resp.readErr = some e →
        validateArgonToken o now st token =
          ⟨.errOut (.readBody e), st, true⟩) ∧
      (∀ resp e, o.remote = .ok resp → resp.statusCode = 200 →
        resp.readErr = none → resp.parse = .error e →
        validateArgonToken o now st token = ⟨.errOut (.json e), st, true⟩)) ∧
      ((validateArgonToken o now st token).out = .invalid →
        (∃ stok vat, o.scanFail = none ∧ st.row = some (stok, vat) ∧
          stok ≠ some token ∧
          (validateArgonToken o now st token).remoteCalled = false) ∨
        (∃ e, o.scanFail = some e ∧ tableMissingErr e = true ∧
          o.createTableErr = none ∧ o.scan2 = .noRows ∧
          (validateArgonToken o now st token).remoteCalled = false) ∨
        (∃ resp, o.remote = .ok resp ∧ resp.parse = .ok false ∧
          (validateArgonToken o now st token).remoteCalled = true)) := by
  constructor
  · intro vat hscan hrow hstale hcfg hreq
    have hfr : (match vat with
        | some u => decide (now - u ≤ ttlNs)
        | none => false) = false := by
      cases vat with
      | none => rfl
      | some u =>
          have := hstale u rfl
          simp only [decide_eq_false_iff_not]
          omega
    refine ⟨fun e hrem => ?_, fun resp hrem hcode => ?_,
      fun resp e hrem hcode hread => ?_,
      fun resp e hrem hcode hread hparse => ?_⟩
    · rcases vat with _ | u
      · simp [validateArgonToken, hscan, hrow, hcfg, hreq, hrem]
      · have hst : ¬(now - u ≤ ttlNs) := by
          have := hstale u rfl
          omega
        simp [validateArgonToken, hscan, hrow, hst, hcfg, hreq, hrem]
    · rcases vat with _ | u
      · simp [validateArgonToken, hscan, hrow, hcfg, hreq, hrem, hcode]
      · have hst : ¬(now - u ≤ ttlNs) := by
          have := hstale u rfl
          omega
        simp [validateArgonToken, hscan, hrow, hst, hcfg, hreq, hrem,
          hcode]
    · rcases vat with _ | u
      · simp [validateArgonToken, hscan, hrow, hcfg, hreq, hrem, hcode,
          hread]
      · have hst : ¬(now - u ≤ ttlNs) := by
          have := hstale u rfl
          omega
        simp [validateArgonToken, hscan, hrow, hst, hcfg, hreq, hrem,
          hcode, hread]
    · rcases vat with _ | u
      · simp [validateArgonToken, hscan, hrow, hcfg, hreq, hrem, hcode,
          hread, hparse]
      · have hst : ¬(now - u ≤ ttlNs) := by
          have := hstale u rfl
          omega
        simp [validateArgonToken, hscan, hrow, hst, hcfg, hreq, hrem,
          hcode, hread, hparse]
  · intro hinv
    rcases hscan : o.scanFail with _ | e
    · rcases hrow : st.row with _ | ⟨stok, vat⟩
      · rcases hins : o.insertErr with _ | e
        · simp [validateArgonToken, hscan, hrow, hins] at hinv
        · simp [validateArgonToken, hscan, hrow, hins] at hinv
      · by_cases hne : stok = some token
        · subst hne
          rcases vat with _ | u
          · by_cases hcfg : o.argonConfigured = true
            · rcases hreq : o.newReqErr with _ | e
              · rcases hrem : o.remote with e | resp
                · simp [validateArgonToken, hscan, hrow, hcfg, hreq,
                    hrem] at hinv
                · by_cases hcode : resp.statusCode = 200
                  · rcases hread : resp.readErr with _ | e
                    · rcases hparse : resp.parse with e | b
                      · simp [validateArgonToken, hscan, hrow, hcfg,
                          hreq, hrem, hcode, hread, hparse] at hinv
                      · cases b
                        · refine Or.inr (Or.inr ⟨resp, rfl, hparse, ?_⟩)
                          simp [validateArgonToken, hscan, hrow, hcfg,
                            hreq, hrem, hcode, hread, hparse]
                        · rcases hupd : o.updateErr with _ | e
                          · simp [validateArgonToken, hscan, hrow, hcfg,
                              hreq, hrem, hcode, hread, hparse,
                              hupd] at hinv
                          · simp [validateArgonToken, hscan, hrow, hcfg,
                              hreq, hrem, hcode, hread, hparse,
                              hupd] at hinv
                    · simp [validateArgonToken, hscan, hrow, hcfg, hreq,
                        hrem, hcode, hread] at hinv
                  · simp [validateArgonToken, hscan, hrow, hcfg, hreq,
                      hrem, hcode] at hinv
              · simp [validateArgonToken, hscan, hrow, hcfg,
                  hreq] at hinv
            · simp [validateArgonToken, hscan, hrow, hcfg] at hinv
          · by_cases hfr : now - u ≤ ttlNs
            · simp [validateArgonToken, hscan, hrow, hfr] at hinv
            · by_cases hcfg : o.argonConfigured = true
              · rcases hreq : o.newReqErr with _ | e
                · rcases hrem : o.remote with e | resp
                  · simp [validateArgonToken, hscan, hrow, hfr, hcfg,
                      hreq, hrem] at hinv
                  · by_cases hcode : resp.statusCode = 200
                    · rcases hread : resp.readErr with _ | e
                      · rcases hparse : resp.parse with e | b
                        · simp [validateArgonToken, hscan, hrow, hfr,
                            hcfg, hreq, hrem, hcode, hread,
                            hparse] at hinv
                        · cases b
                          · refine Or.inr
                              (Or.inr ⟨resp, rfl, hparse, ?_⟩)
                            simp [validateArgonToken, hscan, hrow, hfr,
                              hcfg, hreq, hrem, hcode, hread, hparse]
                          · rcases hupd : o.updateErr with _ | e
                            · simp [validateArgonToken, hscan, hrow,
                                hfr, hcfg, hreq, hrem, hcode, hread,
                                hparse, hupd] at hinv
                            · simp [validateArgonToken, hscan, hrow,
                                hfr, hcfg, hreq, hrem, hcode, hread,
                                hparse, hupd] at hinv
                      · simp [validateArgonToken, hscan, hrow, hfr,
                          hcfg, hreq, hrem, hcode, hread] at hinv
                    · simp [validateArgonToken, hscan, hrow, hfr, hcfg,
                        hreq, hrem, hcode] at hinv
                · simp [validateArgonToken, hscan, hrow, hfr, hcfg,
                    hreq] at hinv
              · simp [validateArgonToken, hscan, hrow, hfr,
                  hcfg] at hinv
        · refine Or.inl ⟨stok, vat, rfl, rfl, hne, ?_⟩
          simp [validateArgonToken, hscan, hrow, hne]
    · by_cases htm : tableMissingErr e = true
      · rcases hct : o.createTableErr with _ | c
        · rcases hs2 : o.scan2 with _ | ⟨tk, vt⟩ | e2
          · refine Or.inr (Or.inl ⟨e, rfl, htm, rfl, rfl, ?_⟩)
            simp [validateArgonToken, hscan, htm, hct, hs2]
          · simp [validateArgonToken, hscan, htm, hct, hs2] at hinv
          · simp [validateArgonToken, hscan, htm, hct, hs2] at hinv
        · simp [validateArgonToken, hscan, htm, hct] at hinv
      · simp [validateArgonToken, hscan, htm] at hinv

/-- Closed instance of C4: a 503 from the authority on a stale cached
credential is surfaced as an Error outcome, not Invalid. -/
theorem validateArgonToken_error_spec_witness :
    validateArgonToken
        ⟨none, none, .noRows, none, none, true,
          .ok ⟨503, none, .ok false⟩, none⟩ 0
        ⟨some (some (bytesOf "tok"), none)⟩ (bytesOf "tok") =
      ⟨.errOut (.http 503), ⟨some (some (bytesOf "tok"), none)⟩, true⟩ :=
  ((validateArgonToken_error_spec
      ⟨none, none, .noRows, none, none, true, .ok ⟨503, none, .ok false⟩,
        none⟩ 0 ⟨some (some (bytesOf "tok"), none)⟩ (bytesOf "tok")).1
    none rfl rfl (fun u hu => by cases hu) rfl rfl).2.1
    ⟨503, none, .ok false⟩ rfl (by decide)

end GDAlt
